import Mathlib

/-!
Verification of the asynchronous structured-logging pipeline
(`core::logging`: Logger, FileLogger, EventLogSink) of the
SP_COURSE_WORK repository, via a shallow embedding of the C++ sources.

Machine integers (`std::size_t`, `ULONGLONG`) are modelled as `Nat`
(the counters only ever grow by small amounts, far from 2^64).
`std::deque<T>` is modelled as `List T` with `push_back` appending at the
right and `pop_front` removing the head.  A byte string
(`std::string` holding UTF-8) is modelled as `String`; its `.size()` is
the UTF-8 byte count, modelled by `strBytes` below.
-/

namespace SPCW

/-! ### Data model (Logger.h) -/

inductive LogLevel
  | Trace
  | Debug
  | Info
  | Warn
  | Error
  | Critical
deriving DecidableEq, Repr

def LogLevel.toNat : LogLevel → Nat
  | .Trace => 0
  | .Debug => 1
  | .Info => 2
  | .Warn => 3
  | .Error => 4
  | .Critical => 5

inductive LoggingProfile
  | Weak
  | Medium
  | Strong
deriving DecidableEq, Repr

inductive OverflowPolicy
  | DropOldest
  | DropNewest
  | Block
deriving DecidableEq, Repr

/-- `LogRecord` (Logger.h): immutable structured event. -/
structure LogRecord where
  timestamp : String := ""
  level : LogLevel := .Info
  message : String := ""
  operation : String := ""
  key_path : String := ""
  value_name : String := ""
  before : String := ""
  after : String := ""
  source : String := ""
  snapshot_id : Option String := none
  metadata : Option String := none
  pid : Nat := 0
  tid : String := ""
deriving DecidableEq, Repr

/-- UTF-8 byte count of a string: the value of `std::string::size()` for the
corresponding C++ string. -/
def strBytes (s : String) : Nat :=
  (s.data.map Char.utf8Size).sum

/-! ### JSON escaping (Logger.cpp, `escapeJsonString`, first variant) -/

/-- Characters the counting loop of `escapeJsonString` counts:
control characters below 0x20, backslash and double quote. -/
def isEscapable (c : Char) : Bool :=
  c.toNat < 0x20 || c = '\\' || c = '\"'

/-- The lookup into `"0123456789abcdef"` performed by the `\u00XX` branch. -/
def hexDigit (n : Nat) : Char :=
  if n < 10 then Char.ofNat ('0'.toNat + n) else Char.ofNat ('a'.toNat + n - 10)

/-- The escape sequence emitted for one character by the switch inside
`escapeJsonString`.  (Faithful for code points below 0x80, where one
`char` is one character.) -/
def escChar (c : Char) : List Char :=
  if c = '\"' then ['\\', '\"']
  else if c = '\\' then ['\\', '\\']
  else if c.toNat = 8 then ['\\', 'b']
  else if c.toNat = 12 then ['\\', 'f']
  else if c.toNat = 10 then ['\\', 'n']
  else if c.toNat = 13 then ['\\', 'r']
  else if c.toNat = 9 then ['\\', 't']
  else if c.toNat < 0x20 then
    ['\\', 'u', '0', '0', hexDigit (c.toNat / 16), hexDigit (c.toNat % 16)]
  else [c]

def escapeCount (s : String) : Nat :=
  (s.data.filter isEscapable).length

/-- `escapeJsonString` (Logger.cpp): counts escapable characters, returns the
input unchanged when there are none, otherwise rebuilds the string escaping
each character. -/
def escapeJsonString (s : String) : String :=
  if escapeCount s = 0 then s else String.mk (s.data.flatMap escChar)

/-! ### NDJSON serialization (`LogRecord::toNDJsonLine`) -/

def jsonStrField (name value : String) : String :=
  ",\"" ++ name ++ "\":\"" ++ escapeJsonString value ++ "\""

/-- A string field is emitted only when non-empty (`!field.empty()`). -/
def optStrField (name value : String) : String :=
  if value = "" then "" else jsonStrField name value

/-- An optional field is emitted only when present (`has_value()`). -/
def optJsonField (name : String) : Option String → String
  | none => ""
  | some v => jsonStrField name v

def LogRecord.toNDJsonLine (r : LogRecord) : String :=
  "\x7b" ++ "\"@ts\":\"" ++ escapeJsonString r.timestamp ++ "\"" ++
  ",\"lvl\":\"" ++ toString r.level.toNat ++ "\"" ++
  optStrField "msg" r.message ++
  optStrField "op" r.operation ++
  optStrField "key" r.key_path ++
  optStrField "val" r.value_name ++
  optStrField "before" r.before ++
  optStrField "after" r.after ++
  optJsonField "snap" r.snapshot_id ++
  optJsonField "meta" r.metadata ++
  optStrField "src" r.source ++
  ",\"pid\":" ++ toString r.pid ++
  ",\"tid\":\"" ++ escapeJsonString r.tid ++ "\"" ++
  "\x7d\n"

/-! ### Dispatch to sinks (Logger.cpp, `processBatchWithSinks`)

A registered sink is modelled by the batches its `consume` has recorded so
far together with a behaviour oracle saying whether `consume` succeeds or
throws on a given batch. -/

structure SinkModel where
  delivered : List (List LogRecord)
  behavior : List LogRecord → Bool

instance : Inhabited SinkModel := ⟨⟨[], fun _ => true⟩⟩

/-- One `sink->consume(batch)` call: either the sink records the batch or it
throws (modelled as `Except.error`). -/
def consumeSink (s : SinkModel) (batch : List LogRecord) : Except String SinkModel :=
  if s.behavior batch then .ok { s with delivered := s.delivered ++ [batch] }
  else .error "sink exception"

/-- The `try / catch` around `sink->consume(batch)` in
`Logger::processBatchWithSinks`: an exception leaves the sink as it was and
produces a stderr diagnostic instead of propagating. -/
def dispatchToSink (batch : List LogRecord) (s : SinkModel) : SinkModel × Option String :=
  match consumeSink s batch with
  | .ok s2 => (s2, none)
  | .error e => (s, some ("Logger sink exception: " ++ e))

/-- `Logger::processBatchWithSinks`: hand the batch to every sink in
registration order, isolating exceptions. -/
def processBatchWithSinks (batch : List LogRecord) (sinks : List SinkModel) :
    List SinkModel :=
  sinks.map (fun s => (dispatchToSink batch s).1)

/-- The stderr diagnostics produced by one dispatch. -/
def dispatchStderr (batch : List LogRecord) (sinks : List SinkModel) : List String :=
  sinks.filterMap (fun s => (dispatchToSink batch s).2)

/-- C1: for every batch the dispatch loop hands out and every registered sink
list, each sink's `consume` is reached exactly once, in registration order
(position `k` of the result is the dispatch of sink `k`); an exception is
caught at the dispatch boundary (the throwing sink's state is left intact and
the call returns normally), so a sink that always throws does not prevent
delivery of the same batch to a later well-behaved sink. -/
theorem C1_dispatch_isolation (batch : List LogRecord) (sinks : List SinkModel)
    (i j : Nat) (bad good : SinkModel)
    (hi : sinks.get? i = some bad) (hj : sinks.get? j = some good)
    (hthrow : bad.behavior batch = false)
    (hok : good.behavior batch = true) :
    (processBatchWithSinks batch sinks).length = sinks.length ∧
    (∀ k, (processBatchWithSinks batch sinks).get? k =
        (sinks.get? k).map (fun s => (dispatchToSink batch s).1)) ∧
    (processBatchWithSinks batch sinks).get? j =
      some { good with delivered := good.delivered ++ [batch] } ∧
    (processBatchWithSinks batch sinks).get? i = some bad := by
  refine ⟨by simp [processBatchWithSinks], fun k => by simp [processBatchWithSinks], ?_, ?_⟩
  · rw [processBatchWithSinks, List.get?_map, hj]
    simp [dispatchToSink, consumeSink, hok]
  · rw [processBatchWithSinks, List.get?_map, hi]
    simp [dispatchToSink, consumeSink, hthrow]

def rec0 : LogRecord := { message := "m" }

def throwingSink : SinkModel := { delivered := [], behavior := fun _ => false }

def okSink : SinkModel := { delivered := [], behavior := fun _ => true }

/-- Witness for C1 at a concrete batch: sink 0 always throws, sink 1 is
well-behaved; the batch still reaches sink 1 and sink 0 is unchanged. -/
theorem C1_dispatch_isolation_witness :
    (processBatchWithSinks [rec0] [throwingSink, okSink]).get? 1 =
      some { okSink with delivered := [[rec0]] } ∧
    (processBatchWithSinks [rec0] [throwingSink, okSink]).get? 0 =
      some throwingSink := by
  have h := C1_dispatch_isolation [rec0] [throwingSink, okSink] 0 1
    throwingSink okSink rfl rfl rfl rfl
  exact ⟨h.2.2.1, h.2.2.2⟩

/-! ### Logger queue and overflow policies (Logger.cpp, `log` /
`handleOverflowPolicy`)

The queue and the counters are protected by one mutex; each admission and
each dispatch pop is a single critical section, so the concurrent system is
modelled as an interleaving of atomic steps on the shared state. -/

structure LoggerState where
  queue : List LogRecord
  dropped : Nat
deriving DecidableEq, Repr

/-- The `DropOldest` eviction loop
(`while (m_queue.size() >= m_maxQueue) { m_queue.pop_front(); ++dropped; }`).
Returns the surviving queue and the number of records evicted.  The source
loop has no emptiness guard; for `maxQueue = 0` it would call `pop_front` on
an empty deque (undefined behaviour), so the model stops at the empty queue
and the theorems below assume `0 < maxQueue`. -/
def dropOldestLoop (maxQueue : Nat) : List LogRecord → Nat → List LogRecord × Nat
  | [], n => ([], n)
  | r :: q, n =>
    if maxQueue ≤ (r :: q).length then dropOldestLoop maxQueue q (n + 1)
    else (r :: q, n)

/-- `Logger::handleOverflowPolicy` (called with the lock held and
`m_queue.size() >= m_maxQueue`).  Under `Block` the producer waits on the
condition variable for room; that wait is modelled at the step-relation
level (`LoggerStep.logStep` is enabled only when there is room), so here the
state is returned unchanged. -/
def handleOverflowPolicy (maxQueue : Nat) (policy : OverflowPolicy)
    (st : LoggerState) (r : LogRecord) : LoggerState :=
  match policy with
  | .Block => st
  | .DropNewest => { st with dropped := st.dropped + 1 }
  | .DropOldest =>
    let (q, n) := dropOldestLoop maxQueue st.queue 0
    { queue := q ++ [r], dropped := st.dropped + n }

/-- The queue-admission part of `Logger::log` (the record is already
constructed and the severity floor already passed). -/
def logAdmit (maxQueue : Nat) (policy : OverflowPolicy)
    (st : LoggerState) (r : LogRecord) : LoggerState :=
  if maxQueue ≤ st.queue.length then handleOverflowPolicy maxQueue policy st r
  else { st with queue := st.queue ++ [r] }

/-- Atomic steps of the Logger: a producer admission (under `Block` the
critical section completes only once there is room, hence the enabling
condition), and the dispatch thread popping up to `kMaxBatch` records from
the front (`writerLoop` / `processRemainingRecords`), modelled as an
arbitrary front pop. -/
inductive LoggerStep (maxQueue : Nat) (policy : OverflowPolicy) :
    LoggerState → LoggerState → Prop
  | logStep (st : LoggerState) (r : LogRecord)
      (h : policy = .Block → st.queue.length < maxQueue) :
      LoggerStep maxQueue policy st (logAdmit maxQueue policy st r)
  | popStep (st : LoggerState) (n : Nat) :
      LoggerStep maxQueue policy st { st with queue := st.queue.drop n }

theorem dropOldestLoop_of_lt (maxQueue : Nat) :
    ∀ (q : List LogRecord) (n : Nat), q.length < maxQueue →
      dropOldestLoop maxQueue q n = (q, n)
  | [], n, _ => rfl
  | r :: q, n, h => by
    rw [dropOldestLoop, if_neg (by omega)]

/-- Exact effect of the `DropOldest` eviction loop on a queue at or over
capacity: the oldest `q.length + 1 - maxQueue` records are removed from the
front and counted. -/
theorem dropOldestLoop_of_le (maxQueue : Nat) (hm : 0 < maxQueue) :
    ∀ (q : List LogRecord) (n : Nat), maxQueue ≤ q.length →
      dropOldestLoop maxQueue q n =
        (q.drop (q.length + 1 - maxQueue), n + (q.length + 1 - maxQueue))
  | [], _, h => by simp at h; omega
  | r :: q, n, h => by
    rw [dropOldestLoop, if_pos h]
    by_cases h2 : maxQueue ≤ q.length
    · rw [dropOldestLoop_of_le maxQueue hm q (n + 1) h2]
      have hd : (r :: q).length + 1 - maxQueue = (q.length + 1 - maxQueue) + 1 := by
        simp
        omega
      rw [hd, List.drop_succ_cons, Prod.mk.injEq]
      exact ⟨rfl, by omega⟩
    · rw [dropOldestLoop_of_lt maxQueue q (n + 1) (by omega)]
      have hd : (r :: q).length + 1 - maxQueue = 1 := by
        simp at h h2 ⊢
        omega
      rw [hd, List.drop_succ_cons, List.drop_zero, Prod.mk.injEq]
      exact ⟨rfl, by omega⟩

theorem logAdmit_length_le (maxQueue : Nat) (policy : OverflowPolicy)
    (st : LoggerState) (r : LogRecord) (hm : 0 < maxQueue)
    (hinv : st.queue.length ≤ maxQueue)
    (hblock : policy = .Block → st.queue.length < maxQueue) :
    (logAdmit maxQueue policy st r).queue.length ≤ maxQueue := by
  unfold logAdmit
  by_cases hfull : maxQueue ≤ st.queue.length
  · rw [if_pos hfull]
    match policy with
    | .Block =>
      exact absurd (hblock rfl) (by omega)
    | .DropNewest =>
      simpa [handleOverflowPolicy] using hinv
    | .DropOldest =>
      simp only [handleOverflowPolicy]
      rw [dropOldestLoop_of_le maxQueue hm st.queue 0 hfull]
      simp
      omega
  · rw [if_neg hfull]
    simp
    omega

/-- C2: for every sequence of `log()` admissions under any `OverflowPolicy`,
interleaved arbitrarily with dispatch-thread pops, the queue never exceeds
its capacity: every state reachable from a state within capacity is within
capacity (`queueSize() <= maxQueue` at every observation point; `maxQueue`
must be positive — with `maxQueue = 0` and `DropOldest` the source pops an
empty deque, which is undefined behaviour). -/
theorem C2_bounded_queue (maxQueue : Nat) (policy : OverflowPolicy)
    (hm : 0 < maxQueue) (st st' : LoggerState)
    (hreach : Relation.ReflTransGen (LoggerStep maxQueue policy) st st')
    (hinv : st.queue.length ≤ maxQueue) :
    st'.queue.length ≤ maxQueue := by
  induction hreach with
  | refl => exact hinv
  | tail _ hstep ih =>
    cases hstep with
    | logStep r h => exact logAdmit_length_le maxQueue policy _ r hm ih h
    | popStep n =>
      simp only [List.length_drop]
      omega

/-- Witness for C2: capacity 3, `DropOldest`, a concrete three-step run
(two admissions and a pop) starting from the empty queue. -/
theorem C2_bounded_queue_witness :
    (LoggerState.mk [rec0] 0).queue.length ≤ 3 := by
  have h2 : LoggerStep 3 .DropOldest ⟨[], 0⟩ ⟨[rec0], 0⟩ := by
    have := @LoggerStep.logStep 3 .DropOldest
      ⟨[], 0⟩ rec0 (fun hc => by cases hc)
    simpa [logAdmit] using this
  have h3 : LoggerStep 3 .DropOldest ⟨[rec0], 0⟩ ⟨[rec0, rec0], 0⟩ := by
    have := @LoggerStep.logStep 3 .DropOldest
      ⟨[rec0], 0⟩ rec0 (fun hc => by cases hc)
    simpa [logAdmit] using this
  have h4 : LoggerStep 3 .DropOldest ⟨[rec0, rec0], 0⟩ ⟨[rec0], 0⟩ := by
    have := @LoggerStep.popStep 3 .DropOldest
      ⟨[rec0, rec0], 0⟩ 1
    simpa using this
  exact C2_bounded_queue 3 .DropOldest (by decide) ⟨[], 0⟩ ⟨[rec0], 0⟩
    (Relation.ReflTransGen.head h2 (Relation.ReflTransGen.head h3
      (Relation.ReflTransGen.single h4))) (by decide)

/-- C3: when `log()` finds the queue exactly at capacity, `DropOldest`
evicts exactly the front (oldest) record — one eviction makes room — counts
that one eviction, and appends the new record at the back; `DropNewest`
discards the incoming record, increments the drop counter exactly once and
leaves the queue unchanged. -/
theorem C3_overflow_policies (maxQueue : Nat) (st : LoggerState)
    (r : LogRecord) (hm : 0 < maxQueue)
    (hcap : st.queue.length = maxQueue) :
    logAdmit maxQueue .DropOldest st r =
      { queue := st.queue.tail ++ [r], dropped := st.dropped + 1 } ∧
    logAdmit maxQueue .DropNewest st r =
      { queue := st.queue, dropped := st.dropped + 1 } := by
  constructor
  · unfold logAdmit
    rw [if_pos (le_of_eq hcap.symm)]
    simp only [handleOverflowPolicy]
    rw [dropOldestLoop_of_le maxQueue hm st.queue 0 (le_of_eq hcap.symm), hcap]
    have h1 : maxQueue + 1 - maxQueue = 1 := by omega
    rw [h1, List.drop_one]
  · unfold logAdmit
    rw [if_pos (le_of_eq hcap.symm)]
    rfl

/-- Witness for C3: capacity 2, queue `[r, r]` at capacity. -/
theorem C3_overflow_policies_witness :
    logAdmit 2 .DropOldest ⟨[rec0, rec0], 0⟩ rec0 =
      { queue := [rec0, rec0], dropped := 1 } ∧
    logAdmit 2 .DropNewest ⟨[rec0, rec0], 0⟩ rec0 =
      { queue := [rec0, rec0], dropped := 1 } := by
  have h := C3_overflow_policies 2 ⟨[rec0, rec0], 0⟩ rec0 (by decide) rfl
  exact ⟨h.1, h.2⟩

/-! ### FileSink internal queue (FileLogger.cpp, first variant, `consume`)

`FileLogger::consume` serializes the batch, and if admitting it would push
the tracked queue byte count past `flushThresholdBytes * 10`, evicts oldest
queued lines until enough bytes are freed, estimating the dropped-record
count from the freed bytes; then it appends all new lines. -/

structure FileSinkState where
  running : Bool
  queue : List String
  currentQueueSize : Nat
  dropped : Nat
deriving DecidableEq, Repr

/-- The eviction loop of `FileLogger::consume`:
`while (!m_queue.empty() && freed_size < need_to_free)` pop the front line,
accumulating its byte size into `freed`. -/
def evictLinesLoop : List String → Nat → Nat → Nat × List String
  | [], freed, _ => (freed, [])
  | l :: ls, freed, need =>
    if freed < need then evictLinesLoop ls (freed + strBytes l) need
    else (freed, l :: ls)

def initFileSink : FileSinkState :=
  { running := true, queue := [], currentQueueSize := 0, dropped := 0 }

/-- `FileLogger::consume` (first variant).  A closed sink counts the whole
batch as dropped; otherwise the serialized lines are admitted after the
byte-ceiling eviction, whose drop counter uses the source's estimate
`(freed + total - need) / lines[0].size()`. -/
def fileConsume (flushThresholdBytes : Nat) (batch : List LogRecord)
    (st : FileSinkState) : FileSinkState :=
  if st.running = false then { st with dropped := st.dropped + batch.length }
  else
    let lines := batch.map LogRecord.toNDJsonLine
    let total := (lines.map strBytes).sum
    let threshold := flushThresholdBytes * 10
    if threshold < st.currentQueueSize + total then
      let need := st.currentQueueSize + total - threshold
      let fr := evictLinesLoop st.queue 0 need
      let droppedCount :=
        (fr.1 + total - need) / (match lines with | [] => 1 | l :: _ => strBytes l)
      { running := st.running
        queue := fr.2 ++ lines
        currentQueueSize := st.currentQueueSize - fr.1 + total
        dropped := st.dropped + droppedCount }
    else
      { st with
        queue := st.queue ++ lines
        currentQueueSize := st.currentQueueSize + total }

/-! ### Logger conservation under `Block`

Instrumented Logger state for the conservation argument: the queue plus the
histories of admitted and delivered records.  Under `Block` an admission
completes only when there is room, and the dispatch pop hands the popped
prefix to the sinks. -/

structure BlockTraceState where
  queue : List LogRecord
  admitted : List LogRecord
  delivered : List LogRecord
deriving DecidableEq, Repr

inductive BlockStep (maxQueue : Nat) : BlockTraceState → BlockTraceState → Prop
  | logStep (st : BlockTraceState) (r : LogRecord) (h : st.queue.length < maxQueue) :
      BlockStep maxQueue st
        { queue := st.queue ++ [r], admitted := st.admitted ++ [r],
          delivered := st.delivered }
  | popStep (st : BlockTraceState) (n : Nat) :
      BlockStep maxQueue st
        { queue := st.queue.drop n, admitted := st.admitted,
          delivered := st.delivered ++ st.queue.take n }

def recA : LogRecord := { message := "A" }

def recB : LogRecord := { message := "B" }

/-- C4 counterexample: `flushThresholdBytes = 5` (byte ceiling 50), two
records submitted through two `consume` calls on a running FileSink with no
write failure anywhere.  The second admission exceeds the ceiling, the line
of `recA` is evicted from the internal queue (counted as one drop) and can
never be written: at most one of the two submitted records reaches the
file, so `submittedCount == writtenCount` fails even under `Block` with
never-failing sinks. -/
theorem C4_conservation_counterexample :
    (fileConsume 5 [recB] (fileConsume 5 [recA] initFileSink)).queue =
      [LogRecord.toNDJsonLine recB] ∧
    (fileConsume 5 [recB] (fileConsume 5 [recA] initFileSink)).dropped = 1 ∧
    LogRecord.toNDJsonLine recA ∉
      (fileConsume 5 [recB] (fileConsume 5 [recA] initFileSink)).queue := by
  refine ⟨by decide, by decide, by decide⟩

/-- C4 amended: the Logger itself loses nothing under `Block` — in every
reachable instrumented state, `delivered ++ queue = admitted`, so every
admitted record is handed to the sinks once the queue drains — and
`FileLogger::consume` admits every serialized line without dropping
anything whenever the batch fits under the internal byte ceiling
`flushThresholdBytes * 10`; records can be lost (evicted and counted) only
when that ceiling is exceeded. -/
theorem C4_conservation_amended :
    (∀ (maxQueue : Nat) (st st' : BlockTraceState),
      Relation.ReflTransGen (BlockStep maxQueue) st st' →
      st.delivered ++ st.queue = st.admitted →
      st'.delivered ++ st'.queue = st'.admitted) ∧
    (∀ (fT : Nat) (batch : List LogRecord) (st : FileSinkState),
      st.running = true →
      st.currentQueueSize + ((batch.map LogRecord.toNDJsonLine).map strBytes).sum ≤
        fT * 10 →
      fileConsume fT batch st =
        { st with
          queue := st.queue ++ batch.map LogRecord.toNDJsonLine,
          currentQueueSize :=
            st.currentQueueSize +
              ((batch.map LogRecord.toNDJsonLine).map strBytes).sum }) := by
  constructor
  · intro maxQueue st st' hreach hinv
    induction hreach with
    | refl => exact hinv
    | tail _ hstep ih =>
      cases hstep with
      | logStep r h =>
        simp only [← List.append_assoc, ih]
      | popStep n =>
        simp only [List.append_assoc, List.take_append_drop, ih]
  · intro fT batch st hrun hfit
    unfold fileConsume
    rw [hrun]
    simp only [Bool.true_eq_false, if_false]
    rw [if_neg (by omega)]

/-- Witness for the amended C4: a one-step `Block` trace preserving the
conservation invariant, and a fitting batch admitted without eviction. -/
theorem C4_conservation_amended_witness :
    ((⟨[recA], [recA], []⟩ : BlockTraceState).delivered ++
        (⟨[recA], [recA], []⟩ : BlockTraceState).queue =
      (⟨[recA], [recA], []⟩ : BlockTraceState).admitted) ∧
    fileConsume 5 [recA] initFileSink =
      { running := true, queue := [LogRecord.toNDJsonLine recA],
        currentQueueSize := strBytes (LogRecord.toNDJsonLine recA),
        dropped := 0 } := by
  constructor
  · exact C4_conservation_amended.1 1 ⟨[], [], []⟩ ⟨[recA], [recA], []⟩
      (Relation.ReflTransGen.single
        (BlockStep.logStep ⟨[], [], []⟩ recA (by decide))) rfl
  · have h := C4_conservation_amended.2 5 [recA] initFileSink rfl (by decide)
    rw [h]
    decide

/-! ### `Logger::flush` (both variants)

The first variant waits on the condition variable until
`m_queue.empty() && active_batches == 0`; the second polls every 10 ms
until `m_queue.empty()`.  Neither wait carries a timeout. -/

/-- The wait predicate of `Logger::flush`: the loop exits only once the
queue is observed empty. -/
def flushWaitDone (st : LoggerState) : Bool :=
  st.queue.isEmpty

/-- An execution trace of the Logger: at each tick either nothing happens
(the dispatch thread is not running or not scheduled) or one atomic step
occurs. -/
def ValidTrace (maxQueue : Nat) (policy : OverflowPolicy)
    (tr : Nat → LoggerState) : Prop :=
  ∀ n, tr (n + 1) = tr n ∨ LoggerStep maxQueue policy (tr n) (tr (n + 1))

/-- `Logger::flush` returns on a trace iff its wait predicate eventually
holds (the loop has no timeout and no diagnostic fallback). -/
def flushTerminates (tr : Nat → LoggerState) : Prop :=
  ∃ n, flushWaitDone (tr n) = true

/-- C5 counterexample: with one queued record and a dispatch thread that
never runs (for example `flush()` called without `start()`), the trace is
valid but the flush wait predicate never holds, so `flush` never returns —
contrary to the claim, there is no bounded wait or diagnostic fallback and
`flush` can hang forever. -/
theorem C5_flush_counterexample :
    ValidTrace 4 .Block (fun _ => ⟨[rec0], 0⟩) ∧
    ¬ flushTerminates (fun _ => ⟨[rec0], 0⟩) := by
  constructor
  · intro n
    exact Or.inl rfl
  · rintro ⟨n, h⟩
    simp [flushWaitDone] at h

/-- C5 amended: `flush` blocks until the queue is observed empty, with no
bounded-wait fallback: it returns exactly on traces whose queue eventually
drains — which a single dispatch pop of the whole queue achieves, so a
running dispatch loop lets `flush` return — and hangs forever otherwise. -/
theorem C5_flush_amended (tr : Nat → LoggerState)
    (maxQueue : Nat) (policy : OverflowPolicy) (st : LoggerState) :
    (flushTerminates tr ↔ ∃ n, (tr n).queue = []) ∧
    LoggerStep maxQueue policy st ⟨[], st.dropped⟩ := by
  constructor
  · constructor
    · rintro ⟨n, h⟩
      exact ⟨n, by simpa [flushWaitDone, List.isEmpty_iff] using h⟩
    · rintro ⟨n, h⟩
      exact ⟨n, by simp [flushWaitDone, h]⟩
  · have h := @LoggerStep.popStep maxQueue policy st st.queue.length
    simpa [List.drop_length] using h

/-! ### File rotation (FileLogger.cpp, first variant, `rotateFile` /
`openLogFile` / `cleanupOldFiles`)

The directory is modelled as a list of files, each with its path, byte size
and last-write time.  `MoveFileW` fails when the target exists
(`ERROR_ALREADY_EXISTS`) or the source is missing. -/

structure FileEntry where
  path : String
  size : Nat
  mtime : Nat
deriving DecidableEq, Repr

def fsHas (fs : List FileEntry) (p : String) : Bool :=
  fs.any (fun e => e.path == p)

def fsRemove (fs : List FileEntry) (p : String) : List FileEntry :=
  fs.filter (fun e => !(e.path == p))

inductive MoveResult where
  | moved (fs : List FileEntry)
  | alreadyExists
  | srcMissing
deriving DecidableEq, Repr

def moveFile (fs : List FileEntry) (src dst : String) : MoveResult :=
  if fsHas fs dst then .alreadyExists
  else
    match fs.find? (fun e => e.path == src) with
    | none => .srcMissing
    | some e => .moved (fsRemove fs src ++ [⟨dst, e.size, e.mtime⟩])

/-- `makeFilePath`: append a backslash to a non-empty directory not already
ending in a separator, then the file name. -/
def makeFilePath (dir name : String) : String :=
  (if dir = "" || dir.back == '\\' || dir.back == '/' then dir
   else dir ++ "\\") ++ name

/-- The UTC fields `GetSystemTime` fills into a `SYSTEMTIME`. -/
structure UtcTime where
  year : Nat
  month : Nat
  day : Nat
  hour : Nat
  minute : Nat
  second : Nat
  ms : Nat
deriving DecidableEq, Repr

/-- `std::setw(w)` with the default fill character: left-pad with SPACES
(the first `rotateFile` variant never calls `setfill`). -/
def wsetw (w : Nat) (n : Nat) : String :=
  let s := toString n
  if s.length < w then String.mk (List.replicate (w - s.length) ' ') ++ s else s

/-- The archival name built from the UTC timestamp in `rotateFile`. -/
def rotateTimestampName (base : String) (t : UtcTime) : String :=
  base ++ "." ++ wsetw 4 t.year ++ "-" ++ wsetw 2 t.month ++ "-" ++
    wsetw 2 t.day ++ "T" ++ wsetw 2 t.hour ++ "-" ++ wsetw 2 t.minute ++
    "-" ++ wsetw 2 t.second ++ "." ++ wsetw 6 t.ms ++ "Z" ++ ".log"

structure RotCfg where
  dir : String
  base : String
  maxFileBytes : Nat
  rotateCount : Nat
deriving DecidableEq, Repr

structure RotState where
  fs : List FileEntry
  currentPath : String
  currentFileBytes : Nat
  rotationSerial : Nat
deriving DecidableEq, Repr

/-- `FileLogger::cleanupOldFiles`: with `rotateCount = 0` it returns at
once; otherwise it collects the archival files (`baseName.*`), sorts them by
last-write time ascending and deletes all but the newest `rotateCount`. -/
def cleanupOldFiles (rotateCount : Nat) (dir base : String)
    (fs : List FileEntry) : List FileEntry :=
  match rotateCount with
  | 0 => fs
  | _ + 1 =>
    let pre := makeFilePath dir (base ++ ".")
    let rotated := fs.filter (fun e => e.path.startsWith pre)
    let sorted := rotated.mergeSort (fun a b => a.mtime ≤ b.mtime)
    let doomed := sorted.take (sorted.length - rotateCount)
    fs.filter (fun e => !(doomed.contains e))

/-- `FileLogger::openLogFile` (effect on the model): `CreateFileW` with
`OPEN_ALWAYS` opens the file at `dir\base` (creating it when absent), seeks
to the end, and the tracked byte count becomes the file's size.  Returns
the directory, the tracked byte count and the current path. -/
def openLogFile (dir base : String) (now : Nat) (fs : List FileEntry) :
    List FileEntry × Nat × String :=
  let p := makeFilePath dir base
  match fs.find? (fun e => e.path == p) with
  | some e => (fs, e.size, p)
  | none => (fs ++ [⟨p, 0, now⟩], 0, p)

/-- `FileLogger::rotateFile` (first variant).  `fmtOk` is whether building
the timestamp name succeeded (the `catch (...)` branch switches to the
`.rotated.<serial>` name and increments the serial); a rename hitting
`ERROR_ALREADY_EXISTS` is retried once at the fixed `.unique`-suffixed
name; if the rename still fails the sink keeps the current file.  Returns
the new state and whether an archive was produced. -/
def rotateFile (cfg : RotCfg) (t : UtcTime) (now : Nat) (fmtOk : Bool)
    (st : RotState) : RotState × Bool :=
  let ns : String × Nat :=
    match fmtOk with
    | true => (rotateTimestampName cfg.base t, st.rotationSerial)
    | false =>
      (cfg.base ++ ".rotated." ++ toString (st.rotationSerial + 1) ++ ".log",
       st.rotationSerial + 1)
  let newPath := makeFilePath cfg.dir ns.1
  let finish := fun (fs2 : List FileEntry) =>
    let fs3 := cleanupOldFiles cfg.rotateCount cfg.dir cfg.base fs2
    let o := openLogFile cfg.dir cfg.base now fs3
    (RotState.mk o.1 o.2.2 o.2.1 ns.2, true)
  let keepCurrent := fun (_ : Unit) =>
    let o := openLogFile cfg.dir cfg.base now st.fs
    (RotState.mk o.1 o.2.2 o.2.1 ns.2, false)
  match moveFile st.fs st.currentPath newPath with
  | .moved fs2 => finish fs2
  | .alreadyExists =>
    match moveFile st.fs st.currentPath (newPath ++ ".unique") with
    | .moved fs2 => finish fs2
    | _ => keepCurrent ()
  | .srcMissing => keepCurrent ()

def fsBump (fs : List FileEntry) (p : String) (written now : Nat) :
    List FileEntry :=
  fs.map (fun e =>
    if e.path == p then { e with size := e.size + written, mtime := now } else e)

/-- The rotation trigger inside `FileLogger::writeBufferToDisk`: a chunk of
`written` bytes grows the file and the tracked count, and
`rotateFile` runs as soon as the count reaches `maxFileBytes`. -/
def writeChunk (cfg : RotCfg) (t : UtcTime) (now : Nat) (fmtOk : Bool)
    (written : Nat) (st : RotState) : RotState × Bool :=
  let st2 : RotState :=
    { st with
      fs := fsBump st.fs st.currentPath written now
      currentFileBytes := st.currentFileBytes + written }
  if cfg.maxFileBytes ≤ st2.currentFileBytes then rotateFile cfg t now fmtOk st2
  else (st2, true)

def c6cfg : RotCfg := ⟨"d", "app.log", 10, 0⟩

def c6t : UtcTime := ⟨2025, 1, 2, 3, 4, 5, 6⟩

def c6base : String := makeFilePath "d" "app.log"

def c6ts : String := makeFilePath "d" (rotateTimestampName "app.log" c6t)

/-- C6 counterexample.  First scenario: both the timestamp-derived archival
name and its `.unique` fallback already exist; a write pushing the tracked
byte count past `maxFileBytes` then creates NO archival file at all and the
tracked byte count is not reset (it stays at 11).  Second scenario: only
the timestamp-derived name collides; the archival file is created at the
fixed `.unique`-suffixed name — not at a monotonically increasing serial
suffix — and the rotation serial stays 0. -/
theorem C6_rotation_counterexample :
    writeChunk c6cfg c6t 7 true 6
        ⟨[⟨c6base, 5, 0⟩, ⟨c6ts, 1, 0⟩, ⟨c6ts ++ ".unique", 1, 0⟩], c6base, 5, 0⟩ =
      (⟨[⟨c6base, 11, 7⟩, ⟨c6ts, 1, 0⟩, ⟨c6ts ++ ".unique", 1, 0⟩],
        c6base, 11, 0⟩, false) ∧
    (writeChunk c6cfg c6t 7 true 6
        ⟨[⟨c6base, 5, 0⟩, ⟨c6ts, 1, 0⟩], c6base, 5, 0⟩).1.fs.map FileEntry.path =
      [c6ts, c6ts ++ ".unique", c6base] ∧
    (writeChunk c6cfg c6t 7 true 6
        ⟨[⟨c6base, 5, 0⟩, ⟨c6ts, 1, 0⟩], c6base, 5, 0⟩).1.rotationSerial = 0 := by
  exact ⟨by decide, by decide, by decide⟩

theorem find?_eq_none_of_fsHas_false (fs : List FileEntry) (p : String)
    (h : fsHas fs p = false) : fs.find? (fun e => e.path == p) = none := by
  rw [List.find?_eq_none]
  intro x hx
  rw [fsHas, List.any_eq_false] at h
  exact h x hx

theorem moveFile_moved (fs : List FileEntry) (src dst : String) (e : FileEntry)
    (hdst : fsHas fs dst = false)
    (hsrc : fs.find? (fun x => x.path == src) = some e) :
    moveFile fs src dst = .moved (fsRemove fs src ++ [⟨dst, e.size, e.mtime⟩]) := by
  unfold moveFile
  rw [hdst, hsrc]
  simp

theorem moveFile_already (fs : List FileEntry) (src dst : String)
    (h : fsHas fs dst = true) : moveFile fs src dst = .alreadyExists := by
  unfold moveFile
  rw [h]
  simp

theorem find?_fsRemove_append_arch (fs : List FileEntry) (bp : String)
    (a : FileEntry) (hne : (a.path == bp) = false) :
    (fsRemove fs bp ++ [a]).find? (fun x => x.path == bp) = none := by
  rw [List.find?_eq_none]
  intro x hx
  rcases List.mem_append.mp hx with hx1 | hx1
  · rw [fsRemove, List.mem_filter] at hx1
    simpa using hx1.2
  · rw [List.mem_singleton] at hx1
    subst hx1
    simp [hne]

theorem fsHas_of_find? (fs : List FileEntry) (q : String) (e : FileEntry)
    (h : fs.find? (fun x => x.path == q) = some e) : fsHas fs q = true := by
  rw [fsHas, List.any_eq_true]
  exact ⟨e, List.mem_of_find?_eq_some h,
    List.find?_some (p := fun x : FileEntry => x.path == q) h⟩

/-- C6 amended: after a write pushes the tracked byte count to
`maxFileBytes` or beyond, `rotateFile` runs (last conjunct), and — with
retention disabled and the active file present at `dir\base` — (1) when the
UTC-timestamp-derived archival name is free, exactly one archival file is
created there, a fresh active file is opened and the tracked byte count
resets to 0; (2) on a name collision the single fallback is the fixed
`.unique`-suffixed name (an archival file is created there when that name
is free); (3) the monotonically increasing serial suffix is used only when
timestamp formatting fails, and then the serial is incremented; (4) when
both renames fail no archival file is created and the tracked byte count
becomes the size of the file still present at the original path. -/
theorem C6_rotation_amended (cfg : RotCfg) (t : UtcTime) (now : Nat)
    (st : RotState) (e : FileEntry)
    (hrc : cfg.rotateCount = 0)
    (hcur : st.currentPath = makeFilePath cfg.dir cfg.base)
    (hsrc : st.fs.find? (fun x => x.path == st.currentPath) = some e) :
    (fsHas st.fs (makeFilePath cfg.dir (rotateTimestampName cfg.base t)) = false →
      rotateFile cfg t now true st =
        (⟨fsRemove st.fs st.currentPath ++
            [⟨makeFilePath cfg.dir (rotateTimestampName cfg.base t), e.size, e.mtime⟩,
             ⟨makeFilePath cfg.dir cfg.base, 0, now⟩],
          makeFilePath cfg.dir cfg.base, 0, st.rotationSerial⟩, true)) ∧
    (fsHas st.fs (makeFilePath cfg.dir (rotateTimestampName cfg.base t)) = true →
      fsHas st.fs
          (makeFilePath cfg.dir (rotateTimestampName cfg.base t) ++ ".unique") = false →
      rotateFile cfg t now true st =
        (⟨fsRemove st.fs st.currentPath ++
            [⟨makeFilePath cfg.dir (rotateTimestampName cfg.base t) ++ ".unique",
              e.size, e.mtime⟩,
             ⟨makeFilePath cfg.dir cfg.base, 0, now⟩],
          makeFilePath cfg.dir cfg.base, 0, st.rotationSerial⟩, true)) ∧
    (fsHas st.fs
        (makeFilePath cfg.dir
          (cfg.base ++ ".rotated." ++ toString (st.rotationSerial + 1) ++ ".log")) =
        false →
      rotateFile cfg t now false st =
        (⟨fsRemove st.fs st.currentPath ++
            [⟨makeFilePath cfg.dir
                (cfg.base ++ ".rotated." ++ toString (st.rotationSerial + 1) ++ ".log"),
              e.size, e.mtime⟩,
             ⟨makeFilePath cfg.dir cfg.base, 0, now⟩],
          makeFilePath cfg.dir cfg.base, 0, st.rotationSerial + 1⟩, true)) ∧
    (fsHas st.fs (makeFilePath cfg.dir (rotateTimestampName cfg.base t)) = true →
      fsHas st.fs
          (makeFilePath cfg.dir (rotateTimestampName cfg.base t) ++ ".unique") = true →
      rotateFile cfg t now true st =
        (⟨st.fs, makeFilePath cfg.dir cfg.base, e.size, st.rotationSerial⟩, false)) ∧
    (∀ written, cfg.maxFileBytes ≤ st.currentFileBytes + written →
      writeChunk cfg t now true written st =
        rotateFile cfg t now true
          { st with
            fs := fsBump st.fs st.currentPath written now
            currentFileBytes := st.currentFileBytes + written }) := by
  have hpath : (e.path == st.currentPath) = true :=
    List.find?_some (p := fun x : FileEntry => x.path == st.currentPath) hsrc
  have hepath : e.path = st.currentPath := by simpa using hpath
  refine ⟨?_, ?_, ?_, ?_, ?_⟩
  · intro hfree
    have hne : ((makeFilePath cfg.dir (rotateTimestampName cfg.base t) : String) ==
        st.currentPath) = false := by
      rw [beq_eq_false_iff_ne]
      intro hcontra
      rw [fsHas, List.any_eq_false] at hfree
      exact hfree e (List.mem_of_find?_eq_some hsrc) (by rw [hcontra]; exact hpath)
    simp only [rotateFile]
    rw [moveFile_moved st.fs st.currentPath _ e hfree hsrc, hrc]
    simp only [cleanupOldFiles, openLogFile]
    rw [← hcur, find?_fsRemove_append_arch st.fs st.currentPath _ hne]
    simp [hcur]
  · intro htaken hfree
    have hne : ((makeFilePath cfg.dir (rotateTimestampName cfg.base t) ++ ".unique" :
        String) == st.currentPath) = false := by
      rw [beq_eq_false_iff_ne]
      intro hcontra
      rw [fsHas, List.any_eq_false] at hfree
      exact hfree e (List.mem_of_find?_eq_some hsrc) (by rw [hcontra]; exact hpath)
    simp only [rotateFile]
    rw [moveFile_already st.fs st.currentPath _ htaken,
      moveFile_moved st.fs st.currentPath _ e hfree hsrc, hrc]
    simp only [cleanupOldFiles, openLogFile]
    rw [← hcur, find?_fsRemove_append_arch st.fs st.currentPath _ hne]
    simp [hcur]
  · intro hfree
    have hne : ((makeFilePath cfg.dir
        (cfg.base ++ ".rotated." ++ toString (st.rotationSerial + 1) ++ ".log") :
        String) == st.currentPath) = false := by
      rw [beq_eq_false_iff_ne]
      intro hcontra
      rw [fsHas, List.any_eq_false] at hfree
      exact hfree e (List.mem_of_find?_eq_some hsrc) (by rw [hcontra]; exact hpath)
    simp only [rotateFile]
    rw [moveFile_moved st.fs st.currentPath _ e hfree hsrc, hrc]
    simp only [cleanupOldFiles, openLogFile]
    rw [← hcur, find?_fsRemove_append_arch st.fs st.currentPath _ hne]
    simp [hcur]
  · intro htaken1 htaken2
    simp only [rotateFile]
    rw [moveFile_already st.fs st.currentPath _ htaken1,
      moveFile_already st.fs st.currentPath _ htaken2]
    simp only [openLogFile]
    rw [← hcur, hsrc]
  · intro written hw
    rw [writeChunk, if_pos (by simpa using hw)]

/-- Witness for the amended C6: a directory holding only the active file of
11 bytes; rotation at a free timestamp name archives it and reopens a fresh
active file with the tracked byte count reset to 0. -/
theorem C6_rotation_amended_witness :
    rotateFile c6cfg c6t 7 true ⟨[⟨c6base, 11, 0⟩], c6base, 11, 0⟩ =
      (⟨[⟨c6ts, 11, 0⟩, ⟨c6base, 0, 7⟩], c6base, 0, 0⟩, true) := by
  have h := (C6_rotation_amended c6cfg c6t 7 ⟨[⟨c6base, 11, 0⟩], c6base, 11, 0⟩
    ⟨c6base, 11, 0⟩ rfl rfl (by decide)).1 (by decide)
  rw [h]
  decide

/-! ### EventLogSink (EventLogSink.h, first variant, `consume`)

`consume` serializes each record, truncates any line over the ReportEvent
payload ceiling (appending a marker and, when present, the record's
snapshot id), converts it to a wide string and admits it to the sink's
count- and memory-bounded queue, evicting oldest entries while either
ceiling is exceeded. -/

def kMaxPayloadBytes : Nat := 61440

def MAX_QUEUE_SIZE : Nat := 10000

def MAX_QUEUE_MEMORY : Nat := 100 * 1024 * 1024

/-- UTF-16 code units of one character (`wchar_t` count on Windows). -/
def wideUnits (c : Char) : Nat :=
  if c.toNat < 0x10000 then 1 else 2

/-- `ws.size() * sizeof(wchar_t)` for the wide form of `s`. -/
def wideBytes (s : String) : Nat :=
  ((s.data.map wideUnits).sum) * 2

/-- `utf8ToWide` changes only the encoding, not the character sequence, so
on the character-sequence model it is the identity. -/
def utf8ToWide (s : String) : String := s

def truncateMarker : String := "...[TRUNCATED]"

/-- `line.substr(0, n)` where `n` is a byte count: the longest prefix whose
UTF-8 byte count fits (the C++ cut is at a byte offset; at a multi-byte
character boundary the model keeps whole characters). -/
def takeBytesAux : List Char → Nat → List Char
  | [], _ => []
  | c :: cs, n => if c.utf8Size ≤ n then c :: takeBytesAux cs (n - c.utf8Size) else []

def takeBytes (s : String) (n : Nat) : String :=
  String.mk (takeBytesAux s.data n)

/-- The per-record truncation of `EventLogSink::consume`: lines longer than
`kMaxPayloadBytes` are cut to `kMaxPayloadBytes - 128` bytes, the marker is
appended, then `" snap=" ++ snapshot_id` when the record has one. -/
def truncateIfOversize (r : LogRecord) : String :=
  let line := r.toNDJsonLine
  if kMaxPayloadBytes < strBytes line then
    let t := takeBytes line (kMaxPayloadBytes - 128) ++ truncateMarker
    match r.snapshot_id with
    | some s => t ++ " snap=" ++ s
    | none => t
  else line

structure EventSinkState where
  running : Bool
  queue : List String
  memory : Nat
  dropped : Nat
deriving DecidableEq, Repr

/-- The eviction loop of `EventLogSink::consume`: while the queue is
non-empty and admitting the prepared batch would exceed the count ceiling
or the memory ceiling, pop the front entry, release its wide-byte size and
count one drop. -/
def eventEvictLoop (prepLen total : Nat) :
    List String → Nat → Nat → List String × Nat × Nat
  | [], mem, dr => ([], mem, dr)
  | l :: ls, mem, dr =>
    if MAX_QUEUE_SIZE < (l :: ls).length + prepLen ||
        MAX_QUEUE_MEMORY < mem + total then
      eventEvictLoop prepLen total ls (mem - wideBytes l) (dr + 1)
    else (l :: ls, mem, dr)

def initEventSink : EventSinkState :=
  { running := true, queue := [], memory := 0, dropped := 0 }

/-- `EventLogSink::consume` (first variant).  A closed sink counts the
whole batch as dropped.  (The source increments `m_current_queue_memory` by
`message.size()` after moving from `message`; the model adds the pushed
line's wide-byte size, which is what the moved-from read yields for strings
within the small-string optimization.) -/
def eventConsumeV1 (batch : List LogRecord) (st : EventSinkState) :
    EventSinkState :=
  if st.running = false then { st with dropped := st.dropped + batch.length }
  else
    let prepared := batch.map (fun r => utf8ToWide (truncateIfOversize r))
    let total := (batch.map (fun r => strBytes (truncateIfOversize r))).sum
    let ev := eventEvictLoop prepared.length total st.queue st.memory st.dropped
    { running := st.running
      queue := ev.1 ++ prepared
      memory := ev.2.1 + (prepared.map wideBytes).sum
      dropped := ev.2.2 }

theorem strBytes_append (s t : String) :
    strBytes (s ++ t) = strBytes s + strBytes t := by
  rw [strBytes, strBytes, strBytes, String.data_append, List.map_append,
    List.sum_append]

def bigA (n : Nat) : String :=
  String.mk (List.replicate n 'a')

theorem escapeCount_bigA (n : Nat) : escapeCount (bigA n) = 0 := by
  rw [escapeCount, bigA]
  induction n with
  | zero => rfl
  | succ k ih => simp [List.replicate_succ, isEscapable, ih]

theorem escapeJsonString_bigA (n : Nat) : escapeJsonString (bigA n) = bigA n := by
  rw [escapeJsonString, if_pos (escapeCount_bigA n)]

theorem strBytes_bigA (n : Nat) : strBytes (bigA n) = n := by
  have h : Char.utf8Size 'a' = 1 := rfl
  rw [strBytes, bigA]
  simp [List.map_replicate, List.sum_replicate, smul_eq_mul, h]


def c7rec : LogRecord := { message := bigA 61441, snapshot_id := some "S1" }

theorem c7rec_line_oversize : kMaxPayloadBytes < strBytes c7rec.toNDJsonLine := by
  have hne : c7rec.message ≠ "" := by
    intro hc
    have h2 : strBytes c7rec.message = 61441 := strBytes_bigA 61441
    rw [hc] at h2
    exact absurd h2 (by decide)
  have hval : strBytes (escapeJsonString c7rec.message) = 61441 := by
    have hm : c7rec.message = bigA 61441 := rfl
    rw [hm, escapeJsonString_bigA, strBytes_bigA]
  rw [LogRecord.toNDJsonLine, optStrField, if_neg hne, jsonStrField]
  simp only [strBytes_append, hval, kMaxPayloadBytes]
  omega

/-- On an empty internal queue no eviction happens: consuming a one-record
batch makes the queue exactly the truncated line. -/
theorem eventConsumeV1_empty_queue (r : LogRecord)
    (st : EventSinkState) (hrun : st.running = true) (hq : st.queue = []) :
    (eventConsumeV1 [r] st).queue = [truncateIfOversize r] := by
  rw [eventConsumeV1, hrun]
  simp [hq, eventEvictLoop, utf8ToWide]

/-- C7 counterexample: a record whose line exceeds the payload ceiling and
which carries `snapshot_id = "S1"` is admitted as a single truncated entry,
but that entry does NOT end with the truncation marker (it ends with the
snapshot id), so the claim's "a single truncated line ending with a
truncation marker" fails for records with a snapshot id. -/
theorem C7_truncation_counterexample :
    kMaxPayloadBytes < strBytes c7rec.toNDJsonLine ∧
    (eventConsumeV1 [c7rec] initEventSink).queue = [truncateIfOversize c7rec] ∧
    ¬ ∃ a, truncateIfOversize c7rec = a ++ truncateMarker := by
  refine ⟨c7rec_line_oversize, ?_, ?_⟩
  · exact eventConsumeV1_empty_queue c7rec initEventSink rfl rfl
  · rintro ⟨a, ha⟩
    have hsome : c7rec.snapshot_id = some "S1" := rfl
    have hform : truncateIfOversize c7rec =
        ((takeBytes c7rec.toNDJsonLine (kMaxPayloadBytes - 128) ++
          truncateMarker) ++ " snap=") ++ "S1" := by
      rw [truncateIfOversize]
      simp only [if_pos c7rec_line_oversize, hsome]
    have h1 : (truncateIfOversize c7rec).data.getLast? = some '1' := by
      rw [hform, String.data_append]
      rw [List.getLast?_append_of_ne_nil _ (by decide)]
      decide
    have h2 : (truncateIfOversize c7rec).data.getLast? = some ']' := by
      rw [ha, String.data_append]
      rw [List.getLast?_append_of_ne_nil _ (by decide)]
      decide
    rw [h1] at h2
    exact absurd h2 (by decide)

/-- C7 amended: a record whose serialized line exceeds the payload ceiling
is admitted to the sink queue as a single truncated entry (appended after
whatever eviction the ceilings force; the record itself is neither split
nor dropped); the entry contains the truncation marker; when the record has
a snapshot id the entry is the truncated prefix, the marker, then
`" snap="` and that id (so it ends with the id); without a snapshot id the
entry ends with the marker. -/
theorem C7_truncation_amended (r : LogRecord) (st : EventSinkState)
    (hrun : st.running = true)
    (hover : kMaxPayloadBytes < strBytes r.toNDJsonLine) :
    (eventConsumeV1 [r] st).queue =
      (eventEvictLoop 1 (strBytes (truncateIfOversize r))
        st.queue st.memory st.dropped).1 ++ [truncateIfOversize r] ∧
    (∃ a b, truncateIfOversize r = (a ++ truncateMarker) ++ b) ∧
    (∀ s, r.snapshot_id = some s →
      truncateIfOversize r =
        ((takeBytes r.toNDJsonLine (kMaxPayloadBytes - 128) ++
          truncateMarker) ++ " snap=") ++ s) ∧
    (r.snapshot_id = none →
      truncateIfOversize r =
        takeBytes r.toNDJsonLine (kMaxPayloadBytes - 128) ++ truncateMarker) := by
  refine ⟨?_, ?_, ?_, ?_⟩
  · rw [eventConsumeV1, hrun]
    simp [utf8ToWide]
  · rw [truncateIfOversize]
    simp only [if_pos hover]
    match hs : r.snapshot_id with
    | some s =>
      exact ⟨takeBytes r.toNDJsonLine (kMaxPayloadBytes - 128),
        " snap=" ++ s, by simp [String.ext_iff]⟩
    | none =>
      exact ⟨takeBytes r.toNDJsonLine (kMaxPayloadBytes - 128), "",
        by rw [String.append_empty]⟩
  · intro s hs
    rw [truncateIfOversize]
    simp only [if_pos hover, hs]
  · intro hs
    rw [truncateIfOversize]
    simp only [if_pos hover, hs]

/-- Witness for the amended C7 at the concrete oversize record. -/
theorem C7_truncation_amended_witness :
    (eventConsumeV1 [c7rec] initEventSink).queue =
      (eventEvictLoop 1 (strBytes (truncateIfOversize c7rec)) [] 0 0).1 ++
        [truncateIfOversize c7rec] ∧
    ∃ a b, truncateIfOversize c7rec = (a ++ truncateMarker) ++ b := by
  have h := C7_truncation_amended c7rec initEventSink rfl c7rec_line_oversize
  exact ⟨h.1, h.2.1⟩




def hexVal (c : Char) : Option Nat :=
  if '0' ≤ c ∧ c ≤ '9' then some (c.toNat - '0'.toNat)
  else if 'a' ≤ c ∧ c ≤ 'f' then some (c.toNat - 'a'.toNat + 10)
  else if 'A' ≤ c ∧ c ≤ 'F' then some (c.toNat - 'A'.toNat + 10)
  else none

def unescapeL : List Char → Option (List Char)
  | [] => some []
  | '\\' :: t =>
    match t with
    | '\"' :: r => (unescapeL r).map (fun l => '\"' :: l)
    | '\\' :: r => (unescapeL r).map (fun l => '\\' :: l)
    | 'b' :: r => (unescapeL r).map (fun l => Char.ofNat 8 :: l)
    | 'f' :: r => (unescapeL r).map (fun l => Char.ofNat 12 :: l)
    | 'n' :: r => (unescapeL r).map (fun l => '\n' :: l)
    | 'r' :: r => (unescapeL r).map (fun l => Char.ofNat 13 :: l)
    | 't' :: r => (unescapeL r).map (fun l => '\t' :: l)
    | 'u' :: h1 :: h2 :: h3 :: h4 :: r =>
      match hexVal h1, hexVal h2, hexVal h3, hexVal h4 with
      | some a, some b, some d1, some d2 =>
        (unescapeL r).map
          (fun l => Char.ofNat (((a * 16 + b) * 16 + d1) * 16 + d2) :: l)
      | _, _, _, _ => none
    | _ => none
  | c :: t => (unescapeL t).map (fun l => c :: l)

def unescapeJson (s : String) : Option String :=
  (unescapeL s.data).map String.mk

theorem escChar_of_plain (c : Char) (h : isEscapable c = false) :
    escChar c = [c] := by
  rw [isEscapable] at h
  simp only [Bool.or_eq_false_iff, decide_eq_false_iff_not] at h
  obtain ⟨⟨h1, h2⟩, h3⟩ := h
  rw [escChar, if_neg h3, if_neg h2, if_neg (by omega), if_neg (by omega),
    if_neg (by omega), if_neg (by omega), if_neg (by omega), if_neg h1]

theorem flatMap_escChar_of_plain :
    ∀ l : List Char, (∀ a ∈ l, isEscapable a = false) → l.flatMap escChar = l
  | [], _ => rfl
  | c :: t, h => by
    rw [List.flatMap_cons, escChar_of_plain c (h c (by simp)),
      flatMap_escChar_of_plain t (fun a ha => h a (by simp [ha]))]
    rfl

theorem escapeJsonString_eq_flatMap (s : String) :
    escapeJsonString s = String.mk (s.data.flatMap escChar) := by
  rw [escapeJsonString]
  by_cases h : escapeCount s = 0
  · rw [if_pos h]
    rw [escapeCount, List.length_eq_zero] at h
    have hall := List.filter_eq_nil_iff.mp h
    have hmap : s.data.flatMap escChar = s.data :=
      flatMap_escChar_of_plain s.data (fun a ha => by simpa using hall a ha)
    exact String.ext hmap.symm
  · rw [if_neg h]

theorem hexVal_hexDigit : ∀ n, n < 16 → hexVal (hexDigit n) = some n := by
  decide

theorem unescapeL_escChar (c : Char) (l : List Char) (hc : c.toNat < 128) :
    unescapeL (escChar c ++ l) = (unescapeL l).map (fun r => c :: r) := by
  by_cases h1 : c = '\"'
  · subst h1
    simp [escChar, unescapeL]
  by_cases h2 : c = '\\'
  · subst h2
    simp [escChar, unescapeL]
  by_cases h3 : c.toNat = 8
  · have hc8 : c = Char.ofNat 8 := by rw [← h3, Char.ofNat_toNat]
    rw [escChar, if_neg h1, if_neg h2, if_pos h3]
    simp [unescapeL, hc8]
  by_cases h4 : c.toNat = 12
  · have hc12 : c = Char.ofNat 12 := by rw [← h4, Char.ofNat_toNat]
    rw [escChar, if_neg h1, if_neg h2, if_neg h3, if_pos h4]
    simp [unescapeL, hc12]
  by_cases h5 : c.toNat = 10
  · have hc10 : c = '\n' := by
      have h := congrArg Char.ofNat h5
      rw [Char.ofNat_toNat] at h
      exact h
    rw [escChar, if_neg h1, if_neg h2, if_neg h3, if_neg h4, if_pos h5]
    simp [unescapeL, hc10]
  by_cases h6 : c.toNat = 13
  · have hc13 : c = Char.ofNat 13 := by rw [← h6, Char.ofNat_toNat]
    rw [escChar, if_neg h1, if_neg h2, if_neg h3, if_neg h4, if_neg h5, if_pos h6]
    simp [unescapeL, hc13]
  by_cases h7 : c.toNat = 9
  · have hc9 : c = '\t' := by
      have h := congrArg Char.ofNat h7
      rw [Char.ofNat_toNat] at h
      exact h
    rw [escChar, if_neg h1, if_neg h2, if_neg h3, if_neg h4, if_neg h5, if_neg h6,
      if_pos h7]
    simp [unescapeL, hc9]
  by_cases h8 : c.toNat < 0x20
  · rw [escChar, if_neg h1, if_neg h2, if_neg h3, if_neg h4, if_neg h5, if_neg h6,
      if_neg h7, if_pos h8]
    have hq : c.toNat / 16 < 16 := by omega
    have hr : c.toNat % 16 < 16 := by omega
    have h0 : hexVal '0' = some 0 := by decide
    simp only [List.cons_append, List.nil_append, unescapeL, if_true,
      hexVal_hexDigit _ hq, hexVal_hexDigit _ hr, h0]
    have hv : (((0 * 16 + 0) * 16 + c.toNat / 16) * 16 + c.toNat % 16) = c.toNat := by
      omega
    simp only [hv, Char.ofNat_toNat, List.nil_append]
    rfl
  · rw [escChar, if_neg h1, if_neg h2, if_neg h3, if_neg h4, if_neg h5, if_neg h6,
      if_neg h7, if_neg h8]
    simp [unescapeL, h2]

theorem unescapeL_flatMap :
    ∀ l : List Char, (∀ c ∈ l, c.toNat < 128) →
      unescapeL (l.flatMap escChar) = some l
  | [], _ => rfl
  | c :: t, h => by
    rw [List.flatMap_cons, unescapeL_escChar c _ (h c (by simp)),
      unescapeL_flatMap t (fun a ha => h a (by simp [ha]))]
    rfl


def msg0 : String := "He said \"hi\"\nline2"

/-- C8: the NDJSON line of a record whose message is
`He said "hi"` + newline + `line2` carries the serialized `msg` field, whose
content JSON-unescapes back to exactly that message; in general the JSON
escaping of `escapeJsonString` (quotes, backslashes and control characters
below 0x20 as `\u00XX`) is inverted exactly by JSON unescaping on strings
of characters below 0x80 (where one character is one byte, matching the
source's per-`char` loop). -/
theorem C8_roundtrip (r : LogRecord) (hmsg : r.message = msg0) :
    (∃ p q, r.toNDJsonLine = p ++ jsonStrField "msg" r.message ++ q) ∧
    unescapeJson (escapeJsonString r.message) = some r.message ∧
    (∀ s : String, (∀ c ∈ s.data, c.toNat < 128) →
      unescapeJson (escapeJsonString s) = some s) := by
  have hgen : ∀ s : String, (∀ c ∈ s.data, c.toNat < 128) →
      unescapeJson (escapeJsonString s) = some s := by
    intro s hs
    rw [escapeJsonString_eq_flatMap, unescapeJson]
    simp [unescapeL_flatMap s.data hs]
  refine ⟨?_, ?_, hgen⟩
  · have hne : r.message ≠ "" := by
      rw [hmsg]
      decide
    refine ⟨"\x7b" ++ "\"@ts\":\"" ++ escapeJsonString r.timestamp ++ "\"" ++
      ",\"lvl\":\"" ++ toString r.level.toNat ++ "\"",
      optStrField "op" r.operation ++
      optStrField "key" r.key_path ++
      optStrField "val" r.value_name ++
      optStrField "before" r.before ++
      optStrField "after" r.after ++
      optJsonField "snap" r.snapshot_id ++
      optJsonField "meta" r.metadata ++
      optStrField "src" r.source ++
      ",\"pid\":" ++ toString r.pid ++
      ",\"tid\":\"" ++ escapeJsonString r.tid ++ "\"" ++
      "\x7d\n", ?_⟩
    rw [LogRecord.toNDJsonLine]
    rw [show optStrField "msg" r.message = jsonStrField "msg" r.message from
      if_neg hne]
    simp [String.append_assoc]
  · exact hgen r.message (by rw [hmsg]; decide)

/-- Witness for C8 at the concrete message. -/
theorem C8_roundtrip_witness :
    unescapeJson (escapeJsonString ({ message := msg0 : LogRecord }).message) =
      some msg0 := by
  have h := C8_roundtrip { message := msg0 } rfl
  exact h.2.1


/-! ### Timestamps (`Logger::currentIsoUtcTimestamp` and the thread-local
cache in `Logger::log`, first variant)

The wall clock is modelled as milliseconds since the Unix epoch.
`currentIsoUtcTimestamp` renders `gmtime` fields with
`"%04d-%02d-%02dT%02d:%02d:%02d.%03dZ"`; `gmtime`'s conversion from epoch
seconds to a UTC civil date is modelled by the standard civil-from-days
algorithm. -/

/-- Days since 1970-01-01 to a `(year, month, day)` UTC civil date (what
`gmtime` computes for the date part). -/
def civilFromDays (z : Nat) : Nat × Nat × Nat :=
  let z2 := z + 719468
  let era := z2 / 146097
  let doe := z2 % 146097
  let yoe := (doe - doe / 1460 + doe / 36524 - doe / 146096) / 365
  let y := yoe + era * 400
  let doy := doe - (365 * yoe + yoe / 4 - yoe / 100)
  let mp := (5 * doy + 2) / 153
  let d := doy - (153 * mp + 2) / 5 + 1
  let m := if mp < 10 then mp + 3 else mp - 9
  (if m ≤ 2 then y + 1 else y, m, d)

/-- `snprintf` `%0<w>d`: left-pad with zeros. -/
def pad0 (w n : Nat) : String :=
  let s := toString n
  if s.length < w then String.mk (List.replicate (w - s.length) '0') ++ s else s

/-- `Logger::currentIsoUtcTimestamp` at clock reading `ms` (milliseconds
since the epoch). -/
def isoUtcTimestamp (ms : Nat) : String :=
  let secs := ms / 1000
  let days := secs / 86400
  let rem := secs % 86400
  let ymd := civilFromDays days
  pad0 4 ymd.1 ++ "-" ++ pad0 2 ymd.2.1 ++ "-" ++ pad0 2 ymd.2.2 ++ "T" ++
    pad0 2 (rem / 3600) ++ ":" ++ pad0 2 (rem % 3600 / 60) ++ ":" ++
    pad0 2 (rem % 60) ++ "." ++ pad0 3 (ms % 1000) ++ "Z"

def minLevelFor : LoggingProfile → Nat
  | .Weak => LogLevel.toNat .Error
  | .Medium => LogLevel.toNat .Info
  | .Strong => LogLevel.toNat .Trace

/-- `Logger::shouldSkipByProfile`. -/
def shouldSkipByProfile (profile : LoggingProfile) (level : LogLevel) : Bool :=
  level.toNat < minLevelFor profile

/-- The thread-local timestamp cache of `Logger::log` (first variant):
`last` is the clock reading at the last refresh, `ts` the cached rendered
string.  `none` models the initial empty `cached_timestamp`. -/
structure TsCache where
  last : Nat
  ts : String
deriving DecidableEq, Repr

/-- The timestamp selection in `Logger::log` (first variant): the cached
string is reused unless the cache is empty or strictly older than one
second (`now - last_time_update > std::chrono::seconds(1)`). -/
def logTimestamp (cache : Option TsCache) (now : Nat) : String × TsCache :=
  match cache with
  | none => (isoUtcTimestamp now, ⟨now, isoUtcTimestamp now⟩)
  | some c =>
    if 1000 < now - c.last then (isoUtcTimestamp now, ⟨now, isoUtcTimestamp now⟩)
    else (c.ts, c)

/-- The record construction of `Logger::log` (first variant): after the
profile floor check, the timestamp comes from the thread-local cache; the
other fields are taken from the call arguments (`fields`, whose
`timestamp` is overwritten). -/
def logMakeRecord (profile : LoggingProfile) (level : LogLevel)
    (fields : LogRecord) (cache : Option TsCache) (now : Nat) :
    Option (LogRecord × TsCache) :=
  if shouldSkipByProfile profile level then none
  else
    let tc := logTimestamp cache now
    some ({ fields with timestamp := tc.1, level := level }, tc.2)

/-- C9 counterexample: a first `log` call at clock 0 fills the thread-local
cache; a second call on the same thread 500 ms later reuses the cached
string, so its record's timestamp is the rendering of clock 0, not of the
clock at that log call — the two renderings differ in the millisecond
field, refuting "the timestamp is the ISO-8601 UTC rendering ... of the
system clock at the moment of that log call" for the cached variant. -/
theorem C9_timestamp_counterexample :
    logMakeRecord .Medium .Info {} none 0 =
      some ({ timestamp := isoUtcTimestamp 0, level := .Info },
        ⟨0, isoUtcTimestamp 0⟩) ∧
    (logMakeRecord .Medium .Info {} (some ⟨0, isoUtcTimestamp 0⟩) 500).map
        (fun rc => rc.1.timestamp) = some (isoUtcTimestamp 0) ∧
    isoUtcTimestamp 0 ≠ isoUtcTimestamp 500 := by
  refine ⟨by decide, by decide, by decide⟩

/-- C9 amended: every record constructed by `log` (first variant, when the
severity passes the profile floor) carries `isoUtcTimestamp t` for some
clock reading `t` taken at most one second before the call; with a fresh
(empty) thread-local cache `t` is the call instant itself, and the cache
keeps the invariant that it stores the rendering of its own reading. -/
theorem C9_timestamp_amended (profile : LoggingProfile) (level : LogLevel)
    (fields : LogRecord) (cache : Option TsCache) (now : Nat)
    (hpass : shouldSkipByProfile profile level = false)
    (hcache : ∀ c, cache = some c → c.ts = isoUtcTimestamp c.last ∧ c.last ≤ now) :
    ∃ r tc, logMakeRecord profile level fields cache now = some (r, tc) ∧
      (∃ t, t ≤ now ∧ now - t ≤ 1000 ∧ r.timestamp = isoUtcTimestamp t) ∧
      tc.ts = isoUtcTimestamp tc.last ∧ tc.last ≤ now ∧
      (cache = none → r.timestamp = isoUtcTimestamp now) := by
  rw [logMakeRecord, if_neg (by rw [hpass]; exact Bool.false_ne_true)]
  match cache with
  | none =>
    refine ⟨_, _, rfl, ⟨now, le_refl now, by omega, rfl⟩, rfl, le_refl now,
      fun _ => rfl⟩
  | some c =>
    obtain ⟨hts, hle⟩ := hcache c rfl
    rw [logTimestamp]
    by_cases hfresh : 1000 < now - c.last
    · rw [if_pos hfresh]
      exact ⟨_, _, rfl, ⟨now, le_refl now, by omega, rfl⟩, rfl, le_refl now,
        fun hc => by cases hc⟩
    · rw [if_neg hfresh]
      exact ⟨_, _, rfl, ⟨c.last, hle, by omega, hts⟩, hts, hle,
        fun hc => by cases hc⟩

/-- Witness for the amended C9: a fresh cache at clock 7. -/
theorem C9_timestamp_amended_witness :
    ∃ r tc, logMakeRecord .Medium .Info {} none 7 = some (r, tc) ∧
      (∃ t, t ≤ 7 ∧ 7 - t ≤ 1000 ∧ r.timestamp = isoUtcTimestamp t) ∧
      tc.ts = isoUtcTimestamp tc.last ∧ tc.last ≤ 7 ∧
      ((none : Option TsCache) = none → r.timestamp = isoUtcTimestamp 7) :=
  C9_timestamp_amended .Medium .Info {} none 7 (by decide)
    (fun c hc => nomatch hc)


/-! ### Second sink variants (FileLogger.cpp / EventLogSink.cpp, second
variants, `consume`): needed for the closed-sink behaviour, where the two
generations of the code count dropped batches differently. -/

structure FileSinkV2State where
  running : Bool
  queue : List String
  dropped : Nat
deriving DecidableEq, Repr

/-- `FileLogger::consume` (second variant).  A closed sink counts ONE drop
for the whole batch.  Otherwise each record's line is appended and, when
the recomputed queue byte size exceeds `flushThresholdBytes * 10`, the
front line is popped and one drop counted (the source's early-exit size
scan decides exactly `total > threshold`). -/
def fileConsumeV2 (flushThresholdBytes : Nat) (batch : List LogRecord)
    (st : FileSinkV2State) : FileSinkV2State :=
  if st.running = false then { st with dropped := st.dropped + 1 }
  else
    batch.foldl (fun acc r =>
      let q2 := acc.queue ++ [r.toNDJsonLine]
      if flushThresholdBytes * 10 < (q2.map strBytes).sum then
        { acc with queue := q2.tail, dropped := acc.dropped + 1 }
      else { acc with queue := q2 }) st

structure EventSinkV2State where
  running : Bool
  queue : List String
  dropped : Nat
deriving DecidableEq, Repr

/-- `EventLogSink::consume` (second variant): a closed sink counts ONE
drop for the whole batch; otherwise every (possibly truncated) line is
enqueued with no ceiling check. -/
def eventConsumeV2 (batch : List LogRecord) (st : EventSinkV2State) :
    EventSinkV2State :=
  if st.running = false then { st with dropped := st.dropped + 1 }
  else
    { st with
      queue := st.queue ++ batch.map (fun r => utf8ToWide (truncateIfOversize r)) }

/-- C10 counterexample: the second FileLogger variant's `consume` on a
closed sink increments the dropped counter by exactly 1 for a 2-record
batch, not by the number of records in the batch. -/
theorem C10_closed_sink_counterexample :
    (fileConsumeV2 1 [rec0, rec0] ⟨false, [], 0⟩).dropped = 1 ∧
    ([rec0, rec0] : List LogRecord).length = 2 ∧
    ¬ (fileConsumeV2 1 [rec0, rec0] ⟨false, [], 0⟩).dropped = 0 + 2 := by
  refine ⟨rfl, rfl, by decide⟩

/-- C10 amended: after `close()` has cleared the running flag, every
subsequent `consume(batch)` leaves the sink's internal queue (and all other
state) unchanged and only increments the dropped counter — by the number of
records in the batch in the first FileLogger/EventLogSink variants, and by
exactly one per `consume` call regardless of batch size in the second
variants; late batches are never enqueued and never silently discarded. -/
theorem C10_closed_sink_amended (batch : List LogRecord)
    (s1 : FileSinkState) (s2 : FileSinkV2State)
    (e1 : EventSinkState) (e2 : EventSinkV2State) (fT : Nat)
    (h1 : s1.running = false) (h2 : s2.running = false)
    (h3 : e1.running = false) (h4 : e2.running = false) :
    fileConsume fT batch s1 = { s1 with dropped := s1.dropped + batch.length } ∧
    fileConsumeV2 fT batch s2 = { s2 with dropped := s2.dropped + 1 } ∧
    eventConsumeV1 batch e1 = { e1 with dropped := e1.dropped + batch.length } ∧
    eventConsumeV2 batch e2 = { e2 with dropped := e2.dropped + 1 } := by
  refine ⟨?_, ?_, ?_, ?_⟩
  · rw [fileConsume, if_pos h1]
  · rw [fileConsumeV2, if_pos h2]
  · rw [eventConsumeV1, if_pos h3]
  · rw [eventConsumeV2, if_pos h4]

/-- Witness for the amended C10 on a closed FileSink (first variant) with a
2-record batch. -/
theorem C10_closed_sink_amended_witness :
    fileConsume 1 [rec0, rec0] ⟨false, [], 0, 0⟩ =
      { running := false, queue := [], currentQueueSize := 0, dropped := 2 } := by
  have h := C10_closed_sink_amended [rec0, rec0] ⟨false, [], 0, 0⟩
    ⟨false, [], 0⟩ ⟨false, [], 0, 0⟩ ⟨false, [], 0⟩ 1 rfl rfl rfl rfl
  rw [h.1]
  rfl

end SPCW
